import Mathlib

/-!
Verification of the richery text-layout engine (geometry, SGR style state
machine, tokenizer, punctuation binding, line layout and justification).
Each definition is a shallow embedding of the corresponding Python
function in the repository; machine integers are modelled as `Int`/`Nat`
and Python float cursor positions as `ℚ`; fallible operations
(exceptions) return `Option`.
-/

set_option maxRecDepth 4096

namespace Richery

/-! ## Geometry (src/richery/canvas.py, class Rect) -/

/-- `Rect` with integer x, y, w, h, embedding the Python `Rect` NamedTuple. -/
structure Rect where
  x : Int := 0
  y : Int := 0
  w : Int := 0
  h : Int := 0
deriving DecidableEq, Repr

/-- Embeds `Rect.from_ltrb`: raising `ArithmeticError` is modelled as `none`.
Python: `if (_x > _xw) ^ (_y > _yh): raise`; otherwise
`Rect(min(_x,_xw), min(_y,_yh), abs(_xw-_x), abs(_yh-_y))`. -/
def Rect.from_ltrb (lt rb : Int × Int) : Option Rect :=
  let x := lt.1; let y := lt.2; let xw := rb.1; let yh := rb.2
  if (decide (x > xw)) != (decide (y > yh)) then none
  else some ⟨min x xw, min y yh, |xw - x|, |yh - y|⟩

/-! ## Font family resolution (src/richery/canvas.py, class FontFamily)

Font handles are abstracted by a type parameter `α` (the code stores PIL
font objects; only identity of the handles matters to the resolver). -/

/-- Embeds the `FontFamily` dataclass: a mandatory `Regular` plus eight
optional weight variants. -/
structure FontFamily (α : Type) where
  Regular : α
  Thin : Option α := none
  ExtraLight : Option α := none
  Light : Option α := none
  Medium : Option α := none
  SemiBold : Option α := none
  Bold : Option α := none
  ExtraBold : Option α := none
  Black : Option α := none

/-- Embeds `FontFamily._tuple`: the nine weight slots in ascending weight
order (Regular sits at index 3, weight 400). -/
def FontFamily._tuple {α : Type} (f : FontFamily α) : List (Option α) :=
  [f.Thin, f.ExtraLight, f.Light, some f.Regular,
   f.Medium, f.SemiBold, f.Bold, f.ExtraBold, f.Black]

/-- Embeds `FontFamily._select`:
`(((self.Regular,) + self._tuple())[_i]) or self.Regular`.
Callers guarantee `_i < 10`; out-of-range indexing (impossible from
`__getitem__`) is modelled by the same `Regular` fallback. -/
def FontFamily._select {α : Type} (f : FontFamily α) (i : Nat) : α :=
  (((some f.Regular :: f._tuple).getD i none).getD f.Regular)

/-- Python `round(i / 100)` for an integer `i`: round half to even on the
exact rational `i / 100` (the only half cases, `i % 100 = 50`, are exactly
representable as floats, so float `round` agrees with the rational one). -/
def pyRoundDiv100 (i : Nat) : Nat :=
  if i % 100 = 50 then
    (if (i / 100) % 2 = 0 then i / 100 else i / 100 + 1)
  else (i + 50) / 100

/-- Embeds `FontFamily.__getitem__`: indices `0 ≤ i < 10` select a slot
directly, `100 ≤ i ≤ 900` select slot `round(i/100)`; anything else raises
`IndexError`, modelled as `none`. -/
def FontFamily.getitem {α : Type} (f : FontFamily α) (i : Int) : Option α :=
  if 0 ≤ i ∧ i < 10 then some (f._select i.toNat)
  else if 100 ≤ i ∧ i ≤ 900 then some (f._select (pyRoundDiv100 i.toNat))
  else none

/-- Embeds `FontFamily.find_relative_font`:
`ext` is the list of configured variants in ascending weight order,
`found = ext.index(start) + delta`, and the code returns
`ext[max(0, min(len(ext), found))]`; indexing at `len(ext)` raises
`IndexError`, modelled as `none`. -/
def FontFamily.find_relative_font {α : Type} [DecidableEq α]
    (f : FontFamily α) (delta : Int) (font : Option α) : Option α :=
  let ext : List α := f._tuple.filterMap id
  let start : α := font.getD f.Regular
  let found : Int := (ext.indexOf start : Int) + delta
  let idx : Int := max 0 (min (ext.length : Int) found)
  ext.get? idx.toNat

/-! ## SGR style state machine (src/richery/ansitool.py, class SGRState)

The persistent fields mirror the Python dataclass.  The extended-color
continuation flags (`op38`, `op38_256`, `op38_24`, `op38_24_tmp`) are
local variables of `set_state` in the source; they are modelled as an
explicit `SGRLocals` value threaded through one call and discarded at
the end of the call, exactly as the locals are. -/

/-- Embeds the persistent fields of the `SGRState` dataclass. -/
structure SGRState where
  power : Int := 0
  italic : Bool := false
  uline : Int := 0
  hline : Int := 0
  strike : Bool := false
  font : Int := 0
  fg_default : Int := 0
  fg : Int := 0
  fg_rgb : Option (List Int) := none
  dot : Bool := false
deriving DecidableEq, Repr

/-- The local variables of one `set_state` call: the flags `op38` and
`op38_256`, the countdown `op38_24`, and the RGB accumulator
`op38_24_tmp`.  The accumulator is initialized once per call and is
never cleared when an extended-color unit completes, so a later `38;2`
unit in the same call appends to the residue of the previous one. -/
structure SGRLocals where
  op38 : Bool := false
  op38_256 : Bool := false
  op38_24 : Nat := 0
  op38_24_tmp : List Int := []
deriving DecidableEq, Repr

/-- The main `if/elif` opcode chain of `set_state` (everything after the
extended-color bookkeeping); the returned flag is the `op38 = True`
assignment performed by the `op == 38` arm; unrecognized opcodes only
emit a warning, leaving the state unchanged. -/
def applyBase (s : SGRState) (op : Int) : SGRState × Bool :=
  if op = 0 then
    ({ s with
        power := 0, uline := 0, hline := 0, font := 0,
        italic := false, strike := false, dot := false,
        fg := s.fg_default, fg_rgb := none }, false)
  else if op = 1 then ({ s with power := s.power + 1 }, false)
  else if op = 2 then ({ s with power := s.power - 1 }, false)
  else if op = 3 then ({ s with italic := true }, false)
  else if op = 4 then ({ s with uline := s.uline + 1 }, false)
  else if op = 9 then ({ s with strike := true }, false)
  else if 10 ≤ op ∧ op ≤ 19 then ({ s with font := op - 10 }, false)
  else if op = 23 then ({ s with italic := false }, false)
  else if op = 24 then ({ s with uline := s.uline - 1 }, false)
  else if op = 29 then ({ s with strike := false }, false)
  else if 30 ≤ op ∧ op ≤ 37 then
    ({ s with fg := op - 30, fg_rgb := none }, false)
  else if op = 38 then (s, true)
  else if op = 39 then ({ s with fg := s.fg_default }, false)
  else if op = 53 then ({ s with hline := s.hline + 1 }, false)
  else if op = 55 then ({ s with hline := s.hline - 1 }, false)
  else if op = 64 then ({ s with dot := true }, false)
  else if op = 65 then ({ s with dot := false }, false)
  else if 90 ≤ op ∧ op ≤ 97 then
    ({ s with fg := op - 82, fg_rgb := none }, false)
  else (s, false)

/-- One iteration of the `for op in opcodes` loop of `set_state`:
`op38_256` consumes the palette index; a nonzero `op38_24` appends the
opcode to the accumulator, committing the whole (uncleaned) accumulator
when the countdown hits zero; `op38` dispatches on 5 / 2 or clears the
flags and falls through to the base chain; otherwise the base chain
runs (possibly re-arming `op38`). -/
def sgrStep (sp : SGRState × SGRLocals) (op : Int) : SGRState × SGRLocals :=
  if sp.2.op38_256 then
    ({ sp.1 with fg := op, fg_rgb := none },
     { sp.2 with op38 := false, op38_256 := false })
  else if sp.2.op38_24 ≠ 0 then
    if sp.2.op38_24 - 1 = 0 then
      ({ sp.1 with fg_rgb := some (sp.2.op38_24_tmp ++ [op]) },
       { sp.2 with op38 := false, op38_256 := false, op38_24 := 0,
                   op38_24_tmp := sp.2.op38_24_tmp ++ [op] })
    else
      (sp.1, { sp.2 with op38_24 := sp.2.op38_24 - 1,
                         op38_24_tmp := sp.2.op38_24_tmp ++ [op] })
  else if sp.2.op38 then
    if op = 5 then (sp.1, { sp.2 with op38_256 := true })
    else if op = 2 then (sp.1, { sp.2 with op38_24 := 3 })
    else
      ((applyBase { sp.1 with fg_rgb := none } op).1,
       { sp.2 with op38 := (applyBase { sp.1 with fg_rgb := none } op).2,
                   op38_256 := false })
  else
    ((applyBase sp.1 op).1, { sp.2 with op38 := (applyBase sp.1 op).2 })

/-- The full loop of `set_state`, keeping the call locals visible. -/
def sgrRun (s : SGRState) (ops : List Int) : SGRState × SGRLocals :=
  ops.foldl sgrStep (s, {})

/-- Embeds one call to `SGRState.set_state`: the continuation flags are
initialized fresh for each call and discarded when it returns. -/
def set_state (s : SGRState) (ops : List Int) : SGRState :=
  (sgrRun s ops).1

/-- The state produced by a full reset (opcode 0) given the
caller-supplied default foreground index `d`. -/
def resetSGR (d : Int) : SGRState :=
  { power := 0, italic := false, uline := 0, hline := 0, strike := false,
    font := 0, fg_default := d, fg := d, fg_rgb := none, dot := false }

/-! ## Segmentation (src/richery/textwork.py and ansitool.py helpers)

Text is modelled as `List Char` (Python strings index by code point). -/

/-- Models Python `str.isspace` (the characters Python classifies as
whitespace, over the repertoire this repository exercises): ASCII
whitespace, the C1/latin additions and the Unicode space separators. -/
def pyIsSpace (c : Char) : Bool :=
  let n := c.toNat
  (9 ≤ n && n ≤ 13) || n = 32 || (28 ≤ n && n ≤ 31) || n = 0x85 || n = 0xa0 ||
  n = 0x1680 || (0x2000 ≤ n && n ≤ 0x200a) || n = 0x2028 || n = 0x2029 ||
  n = 0x202f || n = 0x205f || n = 0x3000

/-- Models `iseaw`: `unicodedata.east_asian_width(c) in ('F', 'W', 'A')`,
by the East Asian Width ranges (wide, fullwidth and the ambiguous
characters the repository's punctuation rules use). -/
def iseaw (c : Char) : Bool :=
  let n := c.toNat
  n = 0xb7 || n = 0x2014 || (0x2018 ≤ n && n ≤ 0x201f) || n = 0x2026 ||
  (0x1100 ≤ n && n ≤ 0x115f) || (0x2e80 ≤ n && n ≤ 0x303e) ||
  (0x3041 ≤ n && n ≤ 0x33ff) || (0x3400 ≤ n && n ≤ 0x4dbf) ||
  (0x4e00 ≤ n && n ≤ 0x9fff) || (0xa000 ≤ n && n ≤ 0xa4cf) ||
  (0xac00 ≤ n && n ≤ 0xd7a3) || (0xf900 ≤ n && n ≤ 0xfaff) ||
  (0xfe30 ≤ n && n ≤ 0xfe4f) || (0xff00 ≤ n && n ≤ 0xff60) ||
  (0xffe0 ≤ n && n ≤ 0xffe6)

/-- Embeds `findword`: index of the first wide, whitespace or escape
character, or the length when there is none. -/
def findword : List Char → Nat
  | [] => 0
  | c :: cs =>
    if iseaw c || pyIsSpace c || c = '\x1b' then 0 else findword cs + 1

/-- Scan of `findcsiend` over `text[2:]` (`i` is the running index). -/
def findcsiendAux (i : Nat) : List Char → Option Nat
  | [] => none
  | c :: cs =>
    if 0x40 ≤ c.toNat ∧ c.toNat < 0x7f then some (i + 3)
    else findcsiendAux (i + 1) cs

/-- Embeds `findcsiend` (src/richery/ansitool.py): first terminating byte
in `[0x40, 0x7f)` after the two introducer characters gives `i + 3`;
with no terminator the whole remaining text counts as the sequence. -/
def findcsiend (s : List Char) : Nat :=
  (findcsiendAux 0 (s.drop 2)).getD s.length

/-- The loop of `split` with an explicit bound on the number of
iterations; every step consumes at least one character, so any
`fuel ≥ t.length` gives the loop's exact behaviour. -/
def splitGo : Nat → List Char → List (List Char)
  | 0, _ => []
  | _, [] => []
  | fuel + 1, c :: cs =>
    let w := if c = '\x1b' then findcsiend (c :: cs) else findword (c :: cs)
    if w = 0 then [c] :: splitGo fuel cs
    else (c :: cs).take w :: splitGo fuel ((c :: cs).drop w)

/-- Embeds `split`: repeatedly take `findcsiend`/`findword` characters,
emitting a single character when the word scan returns 0. -/
def split (t : List Char) : List (List Char) := splitGo t.length t

/-! ## Punctuation binding (src/richery/textwork.py) -/

/-- Embeds the `PunctuationRule` dataclass. -/
structure PunctuationRule where
  left_bind : String
  right_bind : String
  both_bind : String

/-- Python `c in s` for a character and a string. -/
def strContains (s : String) (c : Char) : Bool := s.toList.contains c

/-- Embeds `PunctuationRule.islb`. -/
def PunctuationRule.islb (r : PunctuationRule) (c : Char) : Bool :=
  strContains r.left_bind c || strContains r.both_bind c

/-- Embeds `PunctuationRule.isrb`. -/
def PunctuationRule.isrb (r : PunctuationRule) (c : Char) : Bool :=
  strContains r.right_bind c || strContains r.both_bind c

/-- Embeds `WesternPuncRule`. -/
def WesternPuncRule : PunctuationRule :=
  ⟨",.:;?!>)]\x7d~%", "<([\x7b$#@", "-_+=&^*/|\\"⟩

/-- Embeds `CJKPuncRule`. -/
def CJKPuncRule : PunctuationRule :=
  ⟨"。，、；：？！”）｠》」』】〕〗〙〛〞·-－～",
   "“（｟《「『【〔〖〘〚〝",
   "—…／｜"⟩

/-- Embeds `P_RULES`. -/
def P_RULES : List PunctuationRule := [WesternPuncRule, CJKPuncRule]

/-- Embeds `_islb` (any active rule classifies `c` as left-binding). -/
def islbAny (c : Char) : Bool := P_RULES.any (fun r => r.islb c)

/-- Embeds `_isrb`. -/
def isrbAny (c : Char) : Bool := P_RULES.any (fun r => r.isrb c)

/-- Embeds `_ispunc`. -/
def ispuncAny (c : Char) : Bool :=
  P_RULES.any (fun r => strContains (r.left_bind ++ r.right_bind ++ r.both_bind) c)

/-- Python `wd[0] == "\x1b"`; tokens are never empty (on the empty string
Python would raise, modelled by `none` matching nothing). -/
def isEsc (wd : String) : Bool := wd.toList.head? = some '\x1b'

/-- The single character of a one-character token, when it is one
(Python tests `len(wd) == 1` and then uses `wd` itself as the character). -/
def single? (wd : String) : Option Char :=
  match wd.toList with
  | [c] => some c
  | _ => none

/-- `res[-1] += wd`: append to the last entry.  `res` is never empty at
the call sites (it starts as `[t[0]]` and only grows); the `[]` case is
unreachable. -/
def appendLast : List String → String → List String
  | [], wd => [wd]
  | [x], wd => [x ++ wd]
  | x :: xs, wd => x :: appendLast xs wd

/-- One iteration of the `for wd in t[1:]` loop of `combine`, taking and
returning `(res, rb, psgr)`.  The flag `prb` is reset to `False` at the
end of every Python iteration, so it is iteration-local here. -/
def combineStep (acc : List String × Bool × Bool) (wd : String) :
    List String × Bool × Bool :=
  let res := acc.1; let rb := acc.2.1; let psgr := acc.2.2
  if isEsc wd then (res ++ [wd], false, true)
  else
    let a1 :=
      if rb && !psgr then (appendLast res wd, true, false)
      else (res, false, rb)
    let res1 := a1.1; let prb1 := a1.2.1; let rb1 := a1.2.2
    let a2 :=
      match single? wd with
      | some c =>
        if ispuncAny c then
          let rb2 := isrbAny c
          if islbAny c && !psgr then (appendLast res1 wd, true, rb2)
          else (res1, prb1, rb2)
        else (res1, prb1, rb1)
      | none => (res1, prb1, rb1)
    let res2 := a2.1; let prb2 := a2.2.1; let rb2 := a2.2.2
    let res3 := if prb2 then res2 else res2 ++ [wd]
    (res3, rb2, false)

/-- Embeds `combine`. -/
def combine (t : List String) : List String :=
  match t with
  | [] => []
  | t0 :: rest =>
    (rest.foldl combineStep
      ([t0],
       (match single? t0 with | some c => isrbAny c | none => false),
       isEsc t0)).1

/-! ## Line layout and justification (src/richery/canvas.py, RichCanvas)

Cursor positions are Python floats; on the arithmetic the layout
performs (integer sums plus one exact division per justified line) they
are modelled as exact rationals, kept in lowest terms with a positive
denominator so that structural equality is value equality.  The glyph
metrics provider (`draw.textbbox`) is an explicit parameter
`measure : SGRState → String → Int × Int` (the code measures each token
under `st.current_font`, which is a function of `st.sgr`), and the paint
sink (`draw.text`) is modelled by recording each painted token with the
position it was painted at; font and color arguments go to the external
renderer and carry no layout information. -/

/-- An exact rational `num / den`, kept in lowest terms with `den > 0`. -/
structure PyRat where
  num : Int
  den : Int
deriving DecidableEq, Repr

/-- Normalized rational `n / d` (for `d ≠ 0`). -/
def pyRatMk (n d : Int) : PyRat :=
  let s : Int := if d < 0 then -1 else 1
  let n' := s * n
  let d' := s * d
  let g : Int := (Int.gcd n' d' : Nat)
  if g = 0 then ⟨0, 1⟩ else ⟨n' / g, d' / g⟩

/-- Rational addition. -/
def PyRat.add (a b : PyRat) : PyRat :=
  pyRatMk (a.num * b.den + b.num * a.den) (a.den * b.den)

/-- Rational division (the layout only divides by `n ≥ 1`). -/
def PyRat.div (a b : PyRat) : PyRat :=
  pyRatMk (a.num * b.den) (a.den * b.num)

/-- Integer as a rational. -/
def PyRat.ofInt (n : Int) : PyRat := ⟨n, 1⟩

/-- One call to the external paint sink: position and painted text. -/
structure Paint where
  x : PyRat
  y : PyRat
  txt : String
deriving DecidableEq, Repr

/-- The fields of `TextDrawState` the layout logic reads or writes
(`avoid` is never consulted, `fonts`/`palette` only feed the abstracted
metrics and paint collaborators). -/
structure TextDrawState where
  land : Rect
  lineheight : Int
  curpos : PyRat × PyRat := (⟨0, 1⟩, ⟨0, 1⟩)
  spacing : Int := 4
  sgr : SGRState := {}
deriving DecidableEq, Repr

/-- Python `int(s)` on a parameter substring: digits with an optional
sign, anything else raises `ValueError` (`none`). -/
def pyInt? (s : String) : Option Int :=
  match s.toList with
  | [] => none
  | '-' :: cs =>
    if cs ≠ [] ∧ cs.all Char.isDigit then
      some (-(cs.foldl (fun a c => a * 10 + (c.toNat - 48)) 0 : Nat))
    else none
  | cs =>
    if cs.all Char.isDigit then
      some ((cs.foldl (fun a c => a * 10 + (c.toNat - 48)) 0 : Nat))
    else none

/-- Python `s.split(";")` on the parameter substring, as characters. -/
def splitSemi : List Char → List (List Char)
  | [] => [[]]
  | c :: cs =>
    let r := splitSemi cs
    if c = ';' then [] :: r
    else match r with
      | [] => [[c]]
      | g :: gs => (c :: g) :: gs

/-- `[int(opc) for opc in wd[2:-1].split(";")]` in `_draw_text`. -/
def parseSGRParams (wd : String) : Option (List Int) :=
  ((splitSemi ((wd.toList.drop 2).dropLast)).map String.mk).mapM pyInt?

/-- The `for wd, wi in textq` loop of `_draw_text`: style tokens are
replayed into the SGR state, text tokens are painted at the cursor which
then advances by `wi + breadcrumb / n` (`bn`); a text token with `wi = 0`
raises `RuntimeError` (`none`). -/
def drawTextGo (bn : PyRat) (land : Rect) :
    SGRState → PyRat × PyRat → List (String × Int) →
    Option (SGRState × (PyRat × PyRat) × List Paint)
  | sgr, pos, [] => some (sgr, pos, [])
  | sgr, pos, (wd, wi) :: rest =>
    if isEsc wd then
      match parseSGRParams wd with
      | none => none
      | some ps => drawTextGo bn land (set_state sgr ps) pos rest
    else if wi = 0 then none
    else
      match drawTextGo bn land sgr ((pos.1.add (.ofInt wi)).add bn, pos.2) rest with
      | none => none
      | some (sgr', pos', ps) =>
        some (sgr', pos',
          ⟨pos.1.add (.ofInt land.x), pos.2.add (.ofInt land.y), wd⟩ :: ps)

/-- Embeds `RichCanvas._draw_text` on a queue `textq`:
`n = max(1, len(textq) - 1 - nstyle)` and each painted token advances the
cursor by its width plus `breadcrumb / n`.  Returns the updated state and
the emitted paint calls (the queue is cleared by the caller). -/
def drawText (st : TextDrawState) (textq : List (String × Int))
    (breadcrumb : Int) (nstyle : Int) : Option (TextDrawState × List Paint) :=
  let n : Int := max 1 ((textq.length : Int) - 1 - nstyle)
  let bn : PyRat := (PyRat.ofInt breadcrumb).div (PyRat.ofInt n)
  (drawTextGo bn st.land st.sgr st.curpos textq).map
    (fun r => ({ st with sgr := r.1, curpos := r.2.1 }, r.2.2))

/-- Python `not wd.strip()`: every character is whitespace. -/
def pyStripEmpty (wd : String) : Bool := wd.toList.all pyIsSpace

/-- The loop state of `RichCanvas._text`: draw state, render queue `rq`,
line width `rw` and height `rh`, trailing-whitespace count `ws` and width
`wsw`, leading-whitespace register `lwr`, style count `sty`, plus the
paint calls emitted so far. -/
structure LineState where
  st : TextDrawState
  rq : List (String × Int) := []
  rw : Int := 0
  rh : Int := 0
  ws : Nat := 0
  wsw : Int := 0
  lwr : Bool := true
  sty : Nat := 0
  paints : List Paint := []
deriving DecidableEq, Repr

/-- The part of the `_text` loop body after the overflow block: skip a
leading whitespace token on an empty queue (unless the leading-whitespace
register is still set), else enqueue the token and update the width and
whitespace accounting. -/
def textStepPost (wd : String) (w : Int) (ls1 : LineState) : LineState :=
  if ls1.rq = [] ∧ pyStripEmpty wd ∧ ¬ls1.lwr then ls1
  else
    let ls2 := { ls1 with rw := ls1.rw + w, rq := ls1.rq ++ [(wd, w)] }
    if ¬pyStripEmpty wd then
      { ls2 with lwr := false, ws := 0, wsw := 0 }
    else
      { ls2 with ws := ls2.ws + 1, wsw := ls2.wsw + w }

/-- One iteration of the `for wd in sp` loop of `_text`.  Style tokens
are enqueued with width 0; a text token is measured, `rh` raised, an
overflow flushes the queue after popping `ws` entries from its end
(`deque.pop` from an exhausted queue raises, modelled as `none`), then
the `textStepPost` part runs. -/
def textStep (measure : SGRState → String → Int × Int) (justify : Bool)
    (ls : LineState) (wd : String) : Option LineState :=
  if isEsc wd then
    some { ls with sty := ls.sty + 1, rq := ls.rq ++ [(wd, 0)] }
  else
    let m := measure ls.st.sgr wd
    let rh' := max m.2 (max ls.rh ls.st.lineheight)
    let flushed : Option LineState :=
      if ls.rw + m.1 > ls.st.land.w then
        if ls.ws ≤ ls.rq.length then
          (drawText ls.st (ls.rq.take (ls.rq.length - ls.ws))
              (if justify then ls.st.land.w - ls.rw + ls.wsw else 0) ls.sty).map
            (fun r =>
              { ls with
                 st := { r.1 with
                          curpos := (⟨0, 1⟩,
                            (r.1.curpos.2.add (.ofInt rh')).add (.ofInt r.1.spacing)) },
                 rq := [], sty := 0, rw := 0, rh := 0,
                 paints := ls.paints ++ r.2 })
        else none
      else some { ls with rh := rh' }
    flushed.map (textStepPost wd m.1)

/-- Embeds `RichCanvas._text`: tokenize with `split` then `combine`, run
the token loop, flush the remaining queue with `breadcrumb = 0` and
`nstyle = 0`, and advance the cursor one line.  Returns the final draw
state and the paint calls in the order they were issued. -/
def textLayout (measure : SGRState → String → Int × Int)
    (st : TextDrawState) (text : String) (justify : Bool) :
    Option (TextDrawState × List Paint) :=
  let sp := combine ((split text.toList).map String.mk)
  (sp.foldlM (textStep measure justify) { st := st }).bind
    (fun ls =>
      (drawText ls.st ls.rq 0 0).map
        (fun r =>
          ({ r.1 with
              curpos := (⟨0, 1⟩,
                (r.1.curpos.2.add (.ofInt (max ls.rh r.1.lineheight))).add
                  (.ofInt r.1.spacing)) },
           ls.paints ++ r.2)))

/-! ## Concrete layout configurations used by the evaluations -/

/-- A glyph metrics table: widths a=3, space=2, bbbb=9 (heights 5). -/
def measDemo (_ : SGRState) (wd : String) : Int × Int :=
  if wd = "a" then (3, 5)
  else if wd = " " then (2, 5)
  else if wd = "bbbb" then (9, 5)
  else (1, 1)

/-- A narrow region: width 10, line height 10, spacing 4. -/
def stNarrow : TextDrawState :=
  { land := ⟨0, 0, 10, 100⟩, lineheight := 10 }

/-- A wide region: width 100, line height 10, spacing 4. -/
def stWide : TextDrawState :=
  { land := ⟨0, 0, 100, 100⟩, lineheight := 10 }

/-- A loop state on a fresh line after some text has already been laid
out (`lwr` cleared), as used by the whitespace-dropping witness. -/
def lsAfterText : LineState :=
  { st := stWide, lwr := false }

/-! ## Helper lemmas -/

/-- No opcode ever writes the caller-supplied default foreground index. -/
theorem applyBase_fg_default (s : SGRState) (op : Int) :
    (applyBase s op).1.fg_default = s.fg_default := by
  unfold applyBase
  simp only [apply_ite (fun x : SGRState × Bool => x.1.fg_default), ite_self]

/-- One machine step preserves the default foreground index. -/
theorem sgrStep_fg_default (sp : SGRState × SGRLocals) (op : Int) :
    (sgrStep sp op).1.fg_default = sp.1.fg_default := by
  unfold sgrStep
  split_ifs <;> first | rfl | exact applyBase_fg_default _ op

/-- A whole run preserves the default foreground index. -/
theorem sgrRun_fg_default (s : SGRState) (l : List Int) :
    (sgrRun s l).1.fg_default = s.fg_default := by
  suffices h : ∀ sp : SGRState × SGRLocals,
      (l.foldl sgrStep sp).1.fg_default = sp.1.fg_default from h (s, {})
  induction l with
  | nil => intro sp; rfl
  | cons op rest ih =>
    intro sp
    simp only [List.foldl_cons]
    rw [ih (sgrStep sp op), sgrStep_fg_default]

/-- Opcode 0 through the base chain is the full reset. -/
theorem applyBase_zero (s : SGRState) :
    applyBase s 0 = (resetSGR s.fg_default, false) := by
  rw [applyBase, if_pos rfl]
  rfl

/-- The `split` loop with enough fuel emits consecutive, complete chunks
of its input. -/
theorem splitGo_flatten (fuel : Nat) :
    ∀ t : List Char, t.length ≤ fuel → (splitGo fuel t).flatten = t := by
  induction fuel with
  | zero =>
    intro t ht
    have : t = [] := List.eq_nil_of_length_eq_zero (Nat.le_zero.mp ht)
    subst this; rfl
  | succ n ih =>
    intro t ht
    match t with
    | [] => rfl
    | c :: cs =>
      simp only [splitGo]
      by_cases hw : (if c = '\x1b' then findcsiend (c :: cs) else findword (c :: cs)) = 0
      · rw [if_pos hw, List.flatten_cons,
            ih cs (by simp only [List.length_cons] at ht; omega)]
        rfl
      · rw [if_neg hw, List.flatten_cons,
            ih _ (by
              simp only [List.length_drop, List.length_cons]
              simp only [List.length_cons] at ht
              omega),
            List.take_append_drop]

/-! ## Claim theorems -/

/-- C8: for every input string, segmentation followed by naive
concatenation of all emitted tokens in order (style tokens included)
reproduces the original string exactly. -/
theorem split_concat_roundtrip (t : List Char) : (split t).flatten = t :=
  splitGo_flatten t.length t le_rfl

/-- C7: `combine` applied to `["word", "\x1b[1m", ","]` leaves the comma
as its own entry; the style token blocks the left-bind absorption. -/
theorem combine_keeps_comma_after_style_token :
    combine ["word", "\x1b[1m", ","] = ["word", "\x1b[1m", ","] := by decide

/-- C6: `combine` is not concatenation-preserving: on the token sequence
`["<", ","]` the right-binding absorption and the left-binding absorption
both fire, so the comma is absorbed twice and the output spells a
character the input does not contain twice. -/
theorem combine_duplicates_bound_char :
    combine ["<", ","] = ["<,,"] ∧
    String.join (combine ["<", ","]) ≠ String.join ["<", ","] := by decide

/-- C3 counterexample: constructing from `(10,0)` and `(0,20)` (x-order
descending, y-order ascending) raises, whereas the claim says it yields
the same rectangle as `(0,0)`–`(10,20)`. -/
theorem from_ltrb_mixed_axis_order_rejected :
    Rect.from_ltrb (10, 0) (0, 20) = none := by decide

/-- C3 amended: construction succeeds exactly when the x-ordering and the
y-ordering of the two corners agree: `(0,0)`–`(10,20)` gives width 10 and
height 20, `(10,0)`–`(0,20)` (orders disagree) fails, and
`(10,0)`–`(0,-5)` (both orders descending) succeeds with the corners
swapped, giving the rectangle at `(0,-5)` with width 10 and height 5. -/
theorem from_ltrb_axis_agreement :
    Rect.from_ltrb (0, 0) (10, 20) = some ⟨0, 0, 10, 20⟩ ∧
    Rect.from_ltrb (10, 0) (0, 20) = none ∧
    Rect.from_ltrb (10, 0) (0, -5) = some ⟨0, -5, 10, 5⟩ := by decide

/-- C2 counterexample: with only Regular and Bold configured, indexing by
weight 900 selects slot 9 (Black), which is unset, so the lookup falls
back to Regular — not to the nearest configured variant Bold. -/
theorem getitem_900_resolves_to_regular_not_bold :
    ({ Regular := 0, Bold := some 1 } : FontFamily Nat).getitem 900 = some 0 ∧
    ({ Regular := 0, Bold := some 1 } : FontFamily Nat).getitem 900 ≠ some 1 := by
  decide

/-- C2 amended: weight lookup rounds the weight to a slot (half to even)
and falls back to the base Regular variant when that slot is unset: with
only Regular and Bold configured, weight 450 resolves to Regular (slot 4)
and weight 900 also resolves to Regular (slot 9 unset), not to Bold. -/
theorem getitem_weight_rounds_with_regular_fallback {α : Type} (r b : α) :
    ({ Regular := r, Bold := some b } : FontFamily α).getitem 450 = some r ∧
    ({ Regular := r, Bold := some b } : FontFamily α).getitem 900 = some r := by
  exact ⟨rfl, rfl⟩

/-- C5: with only Regular configured, a relative lookup one step up
clamps the index to `len(ext)` instead of `len(ext) - 1` and the indexing
raises `IndexError` — the claim (and the spec) promise clamping at the
heaviest configured variant instead. -/
theorem find_relative_font_heavy_end_error :
    ({ Regular := 0 } : FontFamily Nat).find_relative_font 1 none = none := by
  decide

/-- C4 counterexample: splitting the extended-color sequence `38;5;31`
into the calls `[38]` and `[5, 31]` loses the pending expectation (the
flags are locals of one call), so the palette index 31 is reinterpreted:
the split run ends with `fg = 1` and the whole run with `fg = 31`. -/
theorem set_state_split_extended_color_differs :
    set_state (set_state {} [38]) [5, 31] ≠ set_state {} [38, 5, 31] := by decide

/-- C4 amended: the extended-color carry-over (pending flags and the
never-cleared RGB accumulator) exists only inside one call; splitting a
sequence into two calls preserves the result exactly when the call-local
state after the first part equals the fresh-call initial state — no
pending extended-color consumption and an empty RGB accumulator. -/
theorem set_state_append_of_fresh_locals (s : SGRState) (l1 l2 : List Int)
    (h : (sgrRun s l1).2 = ({} : SGRLocals)) :
    set_state s (l1 ++ l2) = set_state (set_state s l1) l2 := by
  unfold set_state
  have e2 : sgrRun s l1 = ((sgrRun s l1).1, ({} : SGRLocals)) := by
    rw [← h]
  have e : sgrRun s (l1 ++ l2) = sgrRun (sgrRun s l1).1 l2 := by
    unfold sgrRun
    rw [List.foldl_append]
    rw [show List.foldl sgrStep (s, ({} : SGRLocals)) l1
          = ((sgrRun s l1).1, ({} : SGRLocals)) from e2]
  rw [e]

/-- C4 witness: the hypothesis of `set_state_append_of_fresh_locals`
holds at the concrete split `[38, 5, 10] / [4]` (a completed `38;5` unit
leaves the accumulator untouched) and the conclusion follows. -/
theorem set_state_append_of_fresh_locals_witness :
    (sgrRun {} [38, 5, 10]).2 = ({} : SGRLocals) ∧
    set_state {} ([38, 5, 10] ++ [4]) = set_state (set_state {} [38, 5, 10]) [4] :=
  ⟨by decide, set_state_append_of_fresh_locals {} [38, 5, 10] [4] (by decide)⟩

/-- C9 counterexample: the sequence `[1, 38, 5, 0]` ends in opcode 0, but
that 0 is consumed as the palette index of the `38;5` prefix, so the
weight delta stays 1 instead of resetting to 0. -/
theorem trailing_zero_consumed_as_palette_index :
    (set_state {} [1, 38, 5, 0]).power ≠ 0 := by decide

/-- C9 amended: applying an opcode sequence ending in 0 yields the
documented default state for every prior state, provided the trailing 0
is not consumed as extended-color payload (the machine is not awaiting a
`38;5` palette index or a `38;2` RGB component when it reaches the 0; a
bare pending 38 still resets). -/
theorem set_state_trailing_zero_resets (s : SGRState) (l : List Int)
    (h256 : (sgrRun s l).2.op38_256 = false)
    (h24 : (sgrRun s l).2.op38_24 = 0) :
    set_state s (l ++ [0]) = resetSGR s.fg_default := by
  have hfd : (sgrRun s l).1.fg_default = s.fg_default := sgrRun_fg_default s l
  unfold set_state
  have e : sgrRun s (l ++ [0]) = sgrStep (sgrRun s l) 0 := by
    unfold sgrRun
    rw [List.foldl_append]
    rfl
  rw [e]
  unfold sgrStep
  rw [if_neg (by simp [h256]), if_neg (by simp [h24])]
  by_cases hb : (sgrRun s l).2.op38 = true
  · rw [if_pos hb, if_neg (by decide), if_neg (by decide)]
    show (applyBase { (sgrRun s l).1 with fg_rgb := none } 0).1 = _
    rw [applyBase_zero]
    show resetSGR (sgrRun s l).1.fg_default = _
    rw [hfd]
  · rw [if_neg hb]
    show (applyBase (sgrRun s l).1 0).1 = _
    rw [applyBase_zero]
    show resetSGR (sgrRun s l).1.fg_default = _
    rw [hfd]

/-- C9 witness: the hypotheses of `set_state_trailing_zero_resets` hold
for the prior state with weight 3 and foreground 5 and the sequence
`[4] ++ [0]`, and the conclusion follows. -/
theorem set_state_trailing_zero_resets_witness :
    (sgrRun { power := 3, fg := 5 } [4]).2.op38_256 = false ∧
    (sgrRun { power := 3, fg := 5 } [4]).2.op38_24 = 0 ∧
    set_state { power := 3, fg := 5 } ([4] ++ [0]) =
      resetSGR ({ power := 3, fg := 5 } : SGRState).fg_default :=
  ⟨by decide, by decide,
   set_state_trailing_zero_resets { power := 3, fg := 5 } [4] (by decide) (by decide)⟩

/-- C10 counterexample: on the input `" a"` the leading whitespace
arrives while the render queue is empty, yet it is enqueued and painted
at the start of the first line (the leading-whitespace register is still
set at block start), so the line's painted output begins with
whitespace. -/
theorem leading_whitespace_first_line_painted :
    (textLayout measDemo stWide " a" true).map Prod.snd =
      some [⟨⟨0, 1⟩, ⟨0, 1⟩, " "⟩, ⟨⟨2, 1⟩, ⟨0, 1⟩, "a"⟩] ∧
    pyStripEmpty " " = true := by decide

/-- C10 amended: a whitespace token arriving while the render queue is
empty is dropped — never enqueued and painting nothing — once the
leading-whitespace register has been cleared by an earlier
non-whitespace token; at the very start of the block (register still
set) it is retained. -/
theorem whitespace_on_empty_queue_dropped
    (measure : SGRState → String → Int × Int) (justify : Bool)
    (ls ls' : LineState) (wd : String)
    (hws : pyStripEmpty wd = true) (hesc : isEsc wd = false)
    (hrq : ls.rq = []) (hlwr : ls.lwr = false)
    (hstep : textStep measure justify ls wd = some ls') :
    ls'.rq = [] ∧ ls'.paints = ls.paints := by
  unfold textStep at hstep
  rw [hesc] at hstep
  simp only [Bool.false_eq_true, if_false] at hstep
  by_cases hov : ls.rw + (measure ls.st.sgr wd).1 > ls.st.land.w
  · rw [if_pos hov] at hstep
    by_cases hws0 : ls.ws ≤ ls.rq.length
    · rw [if_pos hws0, hrq] at hstep
      simp only [List.length_nil, List.take_nil, drawText, drawTextGo,
        Option.map_some'] at hstep
      obtain rfl : _ = ls' := Option.some.inj hstep
      unfold textStepPost
      rw [if_pos ⟨rfl, hws, by simp [hlwr]⟩]
      exact ⟨rfl, by simp⟩
    · rw [if_neg hws0] at hstep
      simp only [Option.map_none'] at hstep
      exact absurd hstep (by simp)
  · rw [if_neg hov] at hstep
    simp only [Option.map_some'] at hstep
    obtain rfl : _ = ls' := Option.some.inj hstep
    unfold textStepPost
    rw [if_pos ⟨hrq, hws, by simp [hlwr]⟩]
    exact ⟨hrq, rfl⟩

/-- C10 witness: the hypotheses of `whitespace_on_empty_queue_dropped`
hold for a whitespace token arriving on an empty queue with the register
cleared, and the conclusion follows. -/
theorem whitespace_on_empty_queue_dropped_witness :
    ({ lsAfterText with rh := 10 } : LineState).rq = [] ∧
    ({ lsAfterText with rh := 10 } : LineState).paints = lsAfterText.paints :=
  whitespace_on_empty_queue_dropped (fun _ _ => (2, 5)) true lsAfterText
    { lsAfterText with rh := 10 } " " (by decide) (by decide) rfl rfl (by decide)

/-- C1: at region width 10 with token widths a=3, space=2, bbbb=9, the
forced break pops the trailing style token instead of the trailing
space (the blind pop contradicts the code's own stripping comment), so
the flushed justified line keeps the space, and the line's painted span
runs from x=0 to x=10+2=12 — two units past the region width, beyond the
one unit of rounding the claim allows. -/
theorem justified_flush_paints_past_region :
    (textLayout measDemo stNarrow "a \x1b[1mbbbb" true).map Prod.snd =
      some [⟨⟨0, 1⟩, ⟨0, 1⟩, "a"⟩, ⟨⟨10, 1⟩, ⟨0, 1⟩, " "⟩,
            ⟨⟨0, 1⟩, ⟨14, 1⟩, "bbbb"⟩] ∧
    stNarrow.land.w = 10 ∧ measDemo {} " " = (2, 5) := by decide

end Richery
